import Mathlib

/-
Verification of the streaming-transcode / admission-control repository
(google-video-parser).  The JavaScript sources are shallowly embedded:

* `src/lib/jobQueue.js`   — slot counter (`tryAcquireJobSlot`,
  `releaseJobSlot`, `hasAvailableJobSlot`) and the polling admission loop
  `acquireJobSlotWithMemoryGuard`.  The JS mutable module variable
  `activeJobs` becomes explicit state passing; wall-clock time advances by
  the configured poll interval at each `delay`; the loop gets a fuel
  parameter because the JS loop is unbounded.
* `config.js` (src/unnamed/part_003) — `MAX_MEMORY_MB` parsing; the
  JavaScript value `Infinity` is modelled as `Option Nat` = `none`, and a
  `parseInt` result of `NaN` as `Option Int` = `none`.
* `src/lib/storageHelpers.js` — `sanitizeGcsObjectName`,
  `encodeGcsObjectPath`, `buildGcsAudioResponse`.  JS strings are
  `List Char`; a nullable argument is `Option (List Char)`; `Date.now()`
  is an explicit timestamp parameter.
* `src/lib/mediaPipeline.js` and the streaming variant of
  `convertStreamAndUpload` (first file of src/unnamed/part_001) — modelled
  as event traces indexed by a failure scenario, recording file-system
  effects, process lifecycle and stream teardown in source order.
* the success tail of the `processVideo` handler (src/unnamed/part_000,
  upload → getMetadata → response).
-/

/-! ## Job queue (src/lib/jobQueue.js) -/

/-- One slot-counter mutation, as exported by jobQueue.js.  `activeJobs` is
an `Int` (a JS number); the configured maximum is passed explicitly. -/
def tryAcquireJobSlot (maxConcurrentJobs : Int) (activeJobs : Int) : Bool × Int :=
  if activeJobs ≥ maxConcurrentJobs then (false, activeJobs)
  else (true, activeJobs + 1)

/-- jobQueue.js `releaseJobSlot`: decrement, floored at zero. -/
def releaseJobSlot (activeJobs : Int) : Int :=
  if activeJobs > 0 then activeJobs - 1 else activeJobs

/-- jobQueue.js `hasAvailableJobSlot`. -/
def hasAvailableJobSlot (maxConcurrentJobs : Int) (activeJobs : Int) : Bool :=
  activeJobs < maxConcurrentJobs

/-- An element of a client-visible sequence of slot operations. -/
inductive SlotOp
  | acquire
  | release
deriving DecidableEq, Repr

/-- Effect of one slot operation on the counter (the Bool result of a
`tryAcquireJobSlot` call is dropped, its state effect kept). -/
def applySlotOp (maxConcurrentJobs : Int) (activeJobs : Int) : SlotOp → Int
  | SlotOp.acquire => (tryAcquireJobSlot maxConcurrentJobs activeJobs).2
  | SlotOp.release => releaseJobSlot activeJobs

/-- Effect of a sequence of slot operations, applied left to right. -/
def applySlotOps (maxConcurrentJobs : Int) (ops : List SlotOp) (activeJobs : Int) : Int :=
  ops.foldl (applySlotOp maxConcurrentJobs) activeJobs

/-! ## Decimal rendering (JS template-string interpolation of a number) -/

/-- Decimal digit character (the `_ + 10` arm is unreachable for the `% 10`
and `< 10` call sites below). -/
def digitChar : Nat → Char
  | 0 => '0'
  | 1 => '1'
  | 2 => '2'
  | 3 => '3'
  | 4 => '4'
  | 5 => '5'
  | 6 => '6'
  | 7 => '7'
  | 8 => '8'
  | 9 => '9'
  | _ + 10 => '0'

/-- Decimal rendering with structural fuel (fuel `n + 1` always suffices). -/
def natDigitsAux : Nat → Nat → List Char
  | 0, _ => []
  | fuel + 1, n =>
    if n < 10 then [digitChar n]
    else natDigitsAux fuel (n / 10) ++ [digitChar (n % 10)]

/-- Decimal rendering of a natural number, as JS string interpolation of a
non-negative integer produces. -/
def natDigits (n : Nat) : List Char :=
  natDigitsAux (n + 1) n

/-! ## Admission guard (src/lib/jobQueue.js `acquireJobSlotWithMemoryGuard`)
and configuration parsing (config.js) -/

/-- config.js `MAX_MEMORY_MB`: `parseInt` of the environment value (`none`
models `NaN`); `NaN` or a non-positive number falls back to `Infinity`,
modelled as `none` in the resulting `Option Nat`. -/
def parseMaxMemoryMb (parsedEnv : Option Int) : Option Nat :=
  match parsedEnv with
  | none => none
  | some v => if v ≤ 0 then none else some v.toNat

/-- Static numeric configuration consumed by the admission guard.
`maxMemoryMb = none` models the JS value `Infinity`. -/
structure JobQueueConfig where
  maxMemoryMb : Option Nat
  jobSlotWaitIntervalMs : Nat
  jobQueueTimeoutMs : Nat
  maxConcurrentJobs : Int
deriving DecidableEq, Repr

/-- The guard's memory test `rssMb > MAX_MEMORY_MB`; a finite value is never
greater than `Infinity`. -/
def memoryOverLimit (maxMemoryMb : Option Nat) (rssMb : Nat) : Bool :=
  match maxMemoryMb with
  | none => false
  | some limit => limit < rssMb

/-- Text of the error thrown on admission timeout (jobQueue.js line 64):
`Timed out after <JOB_QUEUE_TIMEOUT_MS>ms waiting for free job slot and
safe memory level`. -/
def timeoutMessageHead : List Char :=
  "Timed out after ".data

/-- Tail of the admission-timeout error text. -/
def timeoutMessageTail : List Char :=
  "ms waiting for free job slot and safe memory level".data

/-- The complete admission-timeout error message for a configured timeout. -/
def timeoutMessage (timeoutMs : Nat) : List Char :=
  timeoutMessageHead ++ natDigits timeoutMs ++ timeoutMessageTail

/-- Outcome of one `acquireJobSlotWithMemoryGuard` call.  `acquired` carries
the updated counter and the grant time; `timedOut` carries the unchanged
counter, the elapsed wall-clock milliseconds at the throw, and the thrown
error message; `outOfFuel` marks exhaustion of the artificial fuel bound. -/
inductive GuardResult
  | acquired (activeJobs : Int) (grantedAtMs : Nat)
  | timedOut (activeJobs : Int) (elapsedMs : Nat) (message : List Char)
  | outOfFuel
deriving DecidableEq, Repr

/-- jobQueue.js `acquireJobSlotWithMemoryGuard`, with the JS module state
`activeJobs` passed explicitly.  `rss` maps a time to the sampled resident
memory in MB; `start` is `Date.now()` at entry, `t` the current time, and
each `delay(JOB_SLOT_WAIT_INTERVAL_MS)` advances time by the interval.
Per iteration: if memory is over the limit, skip the acquire attempt;
otherwise try to take a slot and return on success; then throw if the
elapsed time strictly exceeds `JOB_QUEUE_TIMEOUT_MS`, else sleep and
retry. -/
def acquireJobSlotWithMemoryGuard (cfg : JobQueueConfig) (rss : Nat → Nat)
    (start : Nat) : Nat → Int → Nat → GuardResult
  | _, _, 0 => GuardResult.outOfFuel
  | t, active, fuel + 1 =>
    if memoryOverLimit cfg.maxMemoryMb (rss t) then
      if cfg.jobQueueTimeoutMs < t - start then
        GuardResult.timedOut active (t - start) (timeoutMessage cfg.jobQueueTimeoutMs)
      else
        acquireJobSlotWithMemoryGuard cfg rss start (t + cfg.jobSlotWaitIntervalMs) active fuel
    else
      match tryAcquireJobSlot cfg.maxConcurrentJobs active with
      | (true, active1) => GuardResult.acquired active1 t
      | (false, active1) =>
        if cfg.jobQueueTimeoutMs < t - start then
          GuardResult.timedOut active1 (t - start) (timeoutMessage cfg.jobQueueTimeoutMs)
        else
          acquireJobSlotWithMemoryGuard cfg rss start (t + cfg.jobSlotWaitIntervalMs) active1 fuel

/-- The same polling loop with the memory branch removed: admission governed
by the slot count alone.  Reference behaviour for claim C10. -/
def acquireSlotOnlyLoop (cfg : JobQueueConfig) (start : Nat) : Nat → Int → Nat → GuardResult
  | _, _, 0 => GuardResult.outOfFuel
  | t, active, fuel + 1 =>
    match tryAcquireJobSlot cfg.maxConcurrentJobs active with
    | (true, active1) => GuardResult.acquired active1 t
    | (false, active1) =>
      if cfg.jobQueueTimeoutMs < t - start then
        GuardResult.timedOut active1 (t - start) (timeoutMessage cfg.jobQueueTimeoutMs)
      else
        acquireSlotOnlyLoop cfg start (t + cfg.jobSlotWaitIntervalMs) active1 fuel

/-! ## String helpers (src/lib/storageHelpers.js) -/

/-- Character class of the regex `[a-zA-Z0-9._]` (the complement of what
`sanitizeGcsObjectName` replaces). -/
def isSanitizeAllowed (c : Char) : Bool :=
  ('a' ≤ c && c ≤ 'z') || ('A' ≤ c && c ≤ 'Z') || ('0' ≤ c && c ≤ '9') ||
    c == '.' || c == '_'

/-- Whitespace removed by JS `String.prototype.trim` (the common ASCII
whitespace characters plus NBSP; further Unicode space characters behave
the same for every claim here, since whitespace is never in
`[a-zA-Z0-9._]`). -/
def isJsWhitespace (c : Char) : Bool :=
  c == ' ' || c == '\t' || c == '\n' || c == '\r' ||
    c == Char.ofNat 11 || c == Char.ofNat 12 || c == Char.ofNat 160

/-- JS `.trim()`: strip leading and trailing whitespace. -/
def jsTrim (s : List Char) : List Char :=
  ((s.dropWhile isJsWhitespace).reverse.dropWhile isJsWhitespace).reverse

/-- JS `.replace(/[^a-zA-Z0-9._]+/g, "_")`: each maximal run of characters
outside the class becomes a single underscore.  `inRun` records whether the
previous character was part of a replaced run. -/
def replaceDisallowedRuns (inRun : Bool) : List Char → List Char
  | [] => []
  | c :: cs =>
    if isSanitizeAllowed c then c :: replaceDisallowedRuns false cs
    else if inRun then replaceDisallowedRuns true cs
    else '_' :: replaceDisallowedRuns true cs

/-- JS `.replace(/_+/g, "_")`: collapse each underscore run to a single
underscore. -/
def collapseUnderscoreRuns (inRun : Bool) : List Char → List Char
  | [] => []
  | c :: cs =>
    if c == '_' then
      if inRun then collapseUnderscoreRuns true cs
      else '_' :: collapseUnderscoreRuns true cs
    else c :: collapseUnderscoreRuns false cs

/-- JS `.replace(/^_+|_+$/g, "")`: strip leading and trailing underscore
runs. -/
def stripUnderscoreEdges (s : List Char) : List Char :=
  ((s.dropWhile (fun c => c == '_')).reverse.dropWhile (fun c => c == '_')).reverse

/-- JS `.toLowerCase()` on one character (ASCII range; the sanitised string
only contains ASCII). -/
def jsToLowerChar (c : Char) : Char :=
  if 'A' ≤ c && c ≤ 'Z' then Char.ofNat (c.toNat + 32) else c

/-- The literal `.mp3`. -/
def mp3Ext : List Char :=
  ".mp3".data

/-- The literal `audio_` used for the fallback names. -/
def audioFallbackStem : List Char :=
  "audio_".data

/-- The check `cleaned.toLowerCase().endsWith(".mp3")`. -/
def endsWithMp3Lower (s : List Char) : Bool :=
  mp3Ext.isSuffixOf (s.map jsToLowerChar)

/-- The final step of `sanitizeGcsObjectName`: append `.mp3` unless the
lowercase form already ends with it. -/
def appendMp3IfNeeded (cleaned : List Char) : List Char :=
  if endsWithMp3Lower cleaned then cleaned else cleaned ++ mp3Ext

/-- storageHelpers.js `sanitizeGcsObjectName`.  `name = none` models a
`null`/`undefined` argument (the empty string is the other falsy string
value); `nowTs` is `Date.now()`. -/
def sanitizeGcsObjectName (name : Option (List Char)) (nowTs : Nat) : List Char :=
  match name with
  | none => audioFallbackStem ++ natDigits nowTs ++ mp3Ext
  | some s =>
    if s = [] then audioFallbackStem ++ natDigits nowTs ++ mp3Ext
    else
      let cleaned0 := stripUnderscoreEdges (collapseUnderscoreRuns false
        (replaceDisallowedRuns false (jsTrim s)))
      appendMp3IfNeeded (if cleaned0 = [] then audioFallbackStem ++ natDigits nowTs else cleaned0)

/-! ## URL encoding and the GCS response (src/lib/storageHelpers.js
`encodeGcsObjectPath`, `buildGcsAudioResponse`) -/

/-- Uppercase hexadecimal digit (the `_ + 16` arm is unreachable for the
`/ 16` and `% 16` call sites below). -/
def hexDigitUpper : Nat → Char
  | 0 => '0'
  | 1 => '1'
  | 2 => '2'
  | 3 => '3'
  | 4 => '4'
  | 5 => '5'
  | 6 => '6'
  | 7 => '7'
  | 8 => '8'
  | 9 => '9'
  | 10 => 'A'
  | 11 => 'B'
  | 12 => 'C'
  | 13 => 'D'
  | 14 => 'E'
  | 15 => 'F'
  | _ + 16 => '0'

/-- One percent-escaped byte, `%XX`. -/
def percentEncodeByte (b : Nat) : List Char :=
  ['%', hexDigitUpper (b / 16), hexDigitUpper (b % 16)]

/-- UTF-8 bytes of a code point (what `encodeURIComponent` escapes). -/
def utf8Bytes (c : Char) : List Nat :=
  let n := c.toNat
  if n < 128 then [n]
  else if n < 2048 then [192 + n / 64, 128 + n % 64]
  else if n < 65536 then [224 + n / 4096, 128 + (n / 64) % 64, 128 + n % 64]
  else [240 + n / 262144, 128 + (n / 4096) % 64, 128 + (n / 64) % 64, 128 + n % 64]

/-- Characters `encodeURIComponent` leaves unescaped. -/
def isUriUnreservedJs (c : Char) : Bool :=
  ('a' ≤ c && c ≤ 'z') || ('A' ≤ c && c ≤ 'Z') || ('0' ≤ c && c ≤ '9') ||
    c == '-' || c == '_' || c == '.' || c == '!' || c == '~' || c == '*' ||
    c == Char.ofNat 39 || c == '(' || c == ')'

/-- JS `encodeURIComponent`. -/
def encodeUriComponentJs (s : List Char) : List Char :=
  (s.map (fun c =>
    if isUriUnreservedJs c then [c]
    else ((utf8Bytes c).map percentEncodeByte).flatten)).flatten

/-- storageHelpers.js `encodeGcsObjectPath`: split on `/`, encode each
segment, and re-join with `/`. -/
def encodeGcsObjectPath (objectName : List Char) : List Char :=
  List.intercalate ['/'] ((objectName.splitOn '/').map encodeUriComponentJs)

/-- Metadata the destination object store records for a persisted object
(the fields `buildGcsAudioResponse` reads). -/
structure GcsMetadata where
  size : Nat
  contentType : List Char
  mediaLink : List Char
  selfLink : List Char
  updated : List Char
  custom : List (List Char × List Char)
deriving DecidableEq, Repr

/-- State of one destination object (`gcsFile`): `stored = none` models a
non-existent object. -/
structure GcsFileState where
  stored : Option GcsMetadata
deriving DecidableEq, Repr

/-- A successful `uploadFileToGcs` (write stream finalized): the service
persists the object; `persisted` is the metadata the store records for the
written bytes. -/
def uploadFileToGcs (f : GcsFileState) (persisted : GcsMetadata) : GcsFileState :=
  { stored := some persisted }

/-- `gcsFile.getMetadata()`: query the destination sink for the metadata of
the stored object. -/
def getMetadata (f : GcsFileState) : Option GcsMetadata :=
  f.stored

/-- The literal `gs://`. -/
def gsScheme : List Char :=
  "gs://".data

/-- The literal `/`. -/
def slashLit : List Char :=
  "/".data

/-- The literal `https://storage.googleapis.com/`. -/
def storageUrlBase : List Char :=
  "https://storage.googleapis.com/".data

/-- The object `buildGcsAudioResponse` returns. -/
structure GcsAudioResponse where
  bucket : List Char
  object : List Char
  path : List Char
  gcsUri : List Char
  publicUrl : List Char
  size : Nat
  contentType : List Char
  mediaLink : List Char
  selfLink : List Char
  updated : List Char
  custom : List (List Char × List Char)
deriving DecidableEq, Repr

/-- storageHelpers.js `buildGcsAudioResponse`. -/
def buildGcsAudioResponse (bucketName objectName : List Char) (m : GcsMetadata) :
    GcsAudioResponse :=
  { bucket := bucketName
    object := objectName
    path := objectName
    gcsUri := gsScheme ++ bucketName ++ slashLit ++ objectName
    publicUrl := storageUrlBase ++ bucketName ++ slashLit ++ encodeGcsObjectPath objectName
    size := m.size
    contentType := m.contentType
    mediaLink := m.mediaLink
    selfLink := m.selfLink
    updated := m.updated
    custom := m.custom }

/-- The success tail of the `processVideo` handler (src/unnamed/part_000
lines 409–422 and 434–444): after the upload to the destination object
succeeds, `getMetadata` queries the sink and the response is built from
the queried metadata. -/
def processVideoSuccessTail (bucketName objectName : List Char)
    (file : GcsFileState) (persisted : GcsMetadata) : Option GcsAudioResponse :=
  match getMetadata (uploadFileToGcs file persisted) with
  | some m => some (buildGcsAudioResponse bucketName objectName m)
  | none => none

/-! ## Pipeline event traces

`src/lib/mediaPipeline.js` stages `convertStreamAndUpload` through
temp files (download → file, ffmpeg file → file, file → upload, cleanup in
a `finally`); the streaming variant (first file of src/unnamed/part_001)
pipes source → ffmpeg stdin, ffmpeg stdout → PassThrough → upload, awaits
the three legs with `Promise.all`, and destroys the stdio streams in
`catch`/`finally` without ever killing or awaiting the process there.
Each variant is modelled as the ordered trace of observable events of one
invocation, indexed by which step fails first (external nondeterminism). -/

/-- The two temp paths `makeTempPath` produces per invocation. -/
inductive TempKind
  | inputMp4
  | outputMp3
deriving DecidableEq, Repr

/-- Streams the streaming variant explicitly destroys. -/
inductive StreamId
  | ffmpegStdin
  | ffmpegStdout
  | throttledPassThrough
deriving DecidableEq, Repr

/-- Observable events of one `convertStreamAndUpload` invocation. -/
inductive PipeEvent
  | tempCreated (k : TempKind)
  | tempUnlinked (k : TempKind)
  | ingestStart
  | ingestDone
  | ingestFailed
  | procSpawned
  | procExited (ok : Bool)
  | egressStart
  | egressDone
  | egressFailed
  | streamDestroyed (sid : StreamId)
  | settled (ok : Bool)
deriving DecidableEq, Repr

/-- Failure scenarios of the temp-file variant: which sequential stage
fails first (`spawnFails` = the ffmpeg binary cannot be spawned, so no
process ever runs). -/
inductive MpScenario
  | success
  | downloadFails
  | spawnFails
  | transcodeFails
  | uploadFails
deriving DecidableEq, Repr

/-- The `finally` block of mediaPipeline.js: `cleanupFiles(inputPath,
outputPath)` attempts `unlink` on both temp paths (ENOENT tolerated). -/
def mpCleanup : List PipeEvent :=
  [PipeEvent.tempUnlinked TempKind.inputMp4, PipeEvent.tempUnlinked TempKind.outputMp3]

/-- Event trace of mediaPipeline.js `convertStreamAndUpload`: strictly
sequential stages — `downloadStreamToFile` (creates the input temp file),
then `convertFileToMp3` (spawns ffmpeg, which writes the output temp file
and must exit before the promise settles), then `uploadFileToGcs`; the
`finally` cleanup runs on every path before the promise settles. -/
def mediaPipelineTrace : MpScenario → List PipeEvent
  | MpScenario.success =>
    [PipeEvent.tempCreated TempKind.inputMp4, PipeEvent.ingestStart, PipeEvent.ingestDone,
      PipeEvent.procSpawned, PipeEvent.tempCreated TempKind.outputMp3, PipeEvent.procExited true,
      PipeEvent.egressStart, PipeEvent.egressDone] ++ mpCleanup ++ [PipeEvent.settled true]
  | MpScenario.downloadFails =>
    [PipeEvent.tempCreated TempKind.inputMp4, PipeEvent.ingestStart, PipeEvent.ingestFailed] ++
      mpCleanup ++ [PipeEvent.settled false]
  | MpScenario.spawnFails =>
    [PipeEvent.tempCreated TempKind.inputMp4, PipeEvent.ingestStart, PipeEvent.ingestDone] ++
      mpCleanup ++ [PipeEvent.settled false]
  | MpScenario.transcodeFails =>
    [PipeEvent.tempCreated TempKind.inputMp4, PipeEvent.ingestStart, PipeEvent.ingestDone,
      PipeEvent.procSpawned, PipeEvent.tempCreated TempKind.outputMp3,
      PipeEvent.procExited false] ++ mpCleanup ++ [PipeEvent.settled false]
  | MpScenario.uploadFails =>
    [PipeEvent.tempCreated TempKind.inputMp4, PipeEvent.ingestStart, PipeEvent.ingestDone,
      PipeEvent.procSpawned, PipeEvent.tempCreated TempKind.outputMp3, PipeEvent.procExited true,
      PipeEvent.egressStart, PipeEvent.egressFailed] ++ mpCleanup ++ [PipeEvent.settled false]

/-- Failure scenarios of the streaming variant: which leg fails first.
In `ingestFails` and `egressFails` the external process is still running
when `Promise.all` rejects. -/
inductive StScenario
  | success
  | ingestFails
  | transcodeFails
  | egressFails
deriving DecidableEq, Repr

/-- The streaming variant's `catch`/`finally` teardown: destroy
`ffmpeg.stdin`, `ffmpeg.stdout` and the throttled PassThrough (destroying
an already-destroyed stream is a no-op, so one teardown block stands for
the `catch` destroys followed by the `finally` destroys). -/
def streamingTeardown : List PipeEvent :=
  [PipeEvent.streamDestroyed StreamId.ffmpegStdin,
    PipeEvent.streamDestroyed StreamId.ffmpegStdout,
    PipeEvent.streamDestroyed StreamId.throttledPassThrough]

/-- Event trace of the streaming `convertStreamAndUpload`
(src/unnamed/part_001): spawn ffmpeg, start egress (upload consuming the
piped stdout) and ingest (`pipeline(readableStream, ffmpeg.stdin)`), await
the three legs together; on failure of a leg the `catch`/`finally` blocks
destroy the three streams, but no path kills the process or awaits its
exit — in `ingestFails`/`egressFails` the process has not exited when the
promise settles.  The extra `streamDestroyed ffmpegStdin` in `ingestFails`
is the `readableStream.on(error)` handler. -/
def streamingTrace : StScenario → List PipeEvent
  | StScenario.success =>
    [PipeEvent.procSpawned, PipeEvent.egressStart, PipeEvent.ingestStart, PipeEvent.ingestDone,
      PipeEvent.procExited true, PipeEvent.egressDone] ++ streamingTeardown ++
      [PipeEvent.settled true]
  | StScenario.ingestFails =>
    [PipeEvent.procSpawned, PipeEvent.egressStart, PipeEvent.ingestStart,
      PipeEvent.ingestFailed, PipeEvent.streamDestroyed StreamId.ffmpegStdin] ++
      streamingTeardown ++ [PipeEvent.settled false]
  | StScenario.transcodeFails =>
    [PipeEvent.procSpawned, PipeEvent.egressStart, PipeEvent.ingestStart,
      PipeEvent.procExited false] ++ streamingTeardown ++ [PipeEvent.settled false]
  | StScenario.egressFails =>
    [PipeEvent.procSpawned, PipeEvent.egressStart, PipeEvent.ingestStart,
      PipeEvent.egressFailed, PipeEvent.streamDestroyed StreamId.throttledPassThrough] ++
      streamingTeardown ++ [PipeEvent.settled false]

/-- `a` occurs strictly before `b` in the trace (each event occurs at most
once in the traces above). -/
def occursBefore (a b : PipeEvent) (tr : List PipeEvent) : Bool :=
  tr.contains a && tr.contains b && Nat.blt (tr.indexOf a) (tr.indexOf b)

/-- If a process was spawned during the invocation, its exit was observed
before the invocation settled (neither variant has a kill call, so exit
observation is the only termination evidence). -/
def procTerminatedBeforeSettle (tr : List PipeEvent) : Bool :=
  !(tr.contains PipeEvent.procSpawned) ||
    tr.contains (PipeEvent.procExited true) || tr.contains (PipeEvent.procExited false)

/-- Every temp file created during the invocation is unlinked during it. -/
def tempFilesCleaned (tr : List PipeEvent) : Bool :=
  (!(tr.contains (PipeEvent.tempCreated TempKind.inputMp4)) ||
      tr.contains (PipeEvent.tempUnlinked TempKind.inputMp4)) &&
    (!(tr.contains (PipeEvent.tempCreated TempKind.outputMp3)) ||
      tr.contains (PipeEvent.tempUnlinked TempKind.outputMp3))

/-- The three streams of the streaming variant are destroyed during the
invocation. -/
def streamsTornDown (tr : List PipeEvent) : Bool :=
  tr.contains (PipeEvent.streamDestroyed StreamId.ffmpegStdin) &&
    tr.contains (PipeEvent.streamDestroyed StreamId.ffmpegStdout) &&
    tr.contains (PipeEvent.streamDestroyed StreamId.throttledPassThrough)

/-- The claimed concurrency shape: the process starts consuming input
before ingest finishes, and egress starts before the process exits. -/
def legsOverlapConcurrently (tr : List PipeEvent) : Bool :=
  occursBefore PipeEvent.procSpawned PipeEvent.ingestDone tr &&
    occursBefore PipeEvent.egressStart (PipeEvent.procExited true) tr

theorem applySlotOp_bounds (maxConcurrentJobs activeJobs : Int) (op : SlotOp)
    (h0 : 0 ≤ activeJobs) (h1 : activeJobs ≤ maxConcurrentJobs) :
    0 ≤ applySlotOp maxConcurrentJobs activeJobs op ∧
      applySlotOp maxConcurrentJobs activeJobs op ≤ maxConcurrentJobs := by
  cases op <;>
    simp only [applySlotOp, tryAcquireJobSlot, releaseJobSlot] <;>
    split <;> simp_all <;> omega

theorem applySlotOps_bounds (maxConcurrentJobs : Int) (ops : List SlotOp) (activeJobs : Int)
    (h0 : 0 ≤ activeJobs) (h1 : activeJobs ≤ maxConcurrentJobs) :
    0 ≤ applySlotOps maxConcurrentJobs ops activeJobs ∧
      applySlotOps maxConcurrentJobs ops activeJobs ≤ maxConcurrentJobs := by
  induction ops generalizing activeJobs with
  | nil => exact ⟨h0, h1⟩
  | cons op rest ih =>
    have hstep := applySlotOp_bounds maxConcurrentJobs activeJobs op h0 h1
    simpa [applySlotOps, List.foldl] using
      ih (applySlotOp maxConcurrentJobs activeJobs op) hstep.1 hstep.2

/-! ## Theorems for the slot-counter claims -/

/-- Claim C3: starting from `activeJobs = 0`, every sequence of
`tryAcquireJobSlot` / `releaseJobSlot` operations keeps the held count
between `0` and `MAX_CONCURRENT_JOBS` (for any non-negative configured
maximum). -/
theorem activeJobs_bounded (maxConcurrentJobs : Int) (hmax : 0 ≤ maxConcurrentJobs)
    (ops : List SlotOp) :
    0 ≤ applySlotOps maxConcurrentJobs ops 0 ∧
      applySlotOps maxConcurrentJobs ops 0 ≤ maxConcurrentJobs :=
  applySlotOps_bounds maxConcurrentJobs ops 0 le_rfl hmax

/-- Witness for C3: with `MAX_CONCURRENT_JOBS = 2` and a concrete operation
sequence the bounds hold. -/
theorem activeJobs_bounded_witness :
    0 ≤ applySlotOps 2 [SlotOp.acquire, SlotOp.acquire, SlotOp.acquire, SlotOp.release] 0 ∧
      applySlotOps 2 [SlotOp.acquire, SlotOp.acquire, SlotOp.acquire, SlotOp.release] 0 ≤ 2 :=
  activeJobs_bounded 2 (by decide) [SlotOp.acquire, SlotOp.acquire, SlotOp.acquire, SlotOp.release]

/-- Claim C6: from any non-negative held count at which `tryAcquireJobSlot`
succeeds, a successful acquire immediately followed by `releaseJobSlot`
restores the held count to its value before the acquire. -/
theorem acquire_release_roundtrip (maxConcurrentJobs activeJobs : Int)
    (h0 : 0 ≤ activeJobs)
    (hs : (tryAcquireJobSlot maxConcurrentJobs activeJobs).1 = true) :
    releaseJobSlot (tryAcquireJobSlot maxConcurrentJobs activeJobs).2 = activeJobs := by
  simp only [tryAcquireJobSlot] at hs ⊢
  split at hs
  · simp_all
  · simp only [releaseJobSlot]
    split <;> omega

/-- Witness for C6: at `activeJobs = 0`, `MAX_CONCURRENT_JOBS = 2` the
acquire succeeds and the roundtrip restores the count. -/
theorem acquire_release_roundtrip_witness :
    releaseJobSlot (tryAcquireJobSlot 2 0).2 = 0 :=
  acquire_release_roundtrip 2 0 (by decide) (by decide)

/-! ## Guard-loop lemmas -/

theorem guard_overLimit_shape (cfg : JobQueueConfig) (rss : Nat → Nat) (start : Nat)
    (hover : ∀ u, memoryOverLimit cfg.maxMemoryMb (rss u) = true) :
    ∀ (fuel t : Nat) (active : Int),
      acquireJobSlotWithMemoryGuard cfg rss start t active fuel = GuardResult.outOfFuel ∨
        ∃ e, cfg.jobQueueTimeoutMs < e ∧
          acquireJobSlotWithMemoryGuard cfg rss start t active fuel
            = GuardResult.timedOut active e (timeoutMessage cfg.jobQueueTimeoutMs) := by
  intro fuel
  induction fuel with
  | zero => intro t active; left; rfl
  | succ fuel ih =>
    intro t active
    simp only [acquireJobSlotWithMemoryGuard, hover t, if_true]
    split
    · right
      exact ⟨t - start, by assumption, rfl⟩
    · exact ih (t + cfg.jobSlotWaitIntervalMs) active

theorem guard_overLimit_terminates (cfg : JobQueueConfig) (rss : Nat → Nat) (start : Nat)
    (hover : ∀ u, memoryOverLimit cfg.maxMemoryMb (rss u) = true)
    (hint : 1 ≤ cfg.jobSlotWaitIntervalMs) :
    ∀ (fuel t : Nat) (active : Int), start ≤ t → 1 ≤ fuel →
      cfg.jobQueueTimeoutMs + 2 - (t - start) ≤ fuel →
      acquireJobSlotWithMemoryGuard cfg rss start t active fuel ≠ GuardResult.outOfFuel := by
  intro fuel
  induction fuel with
  | zero => intro t active _ h1 _; omega
  | succ fuel ih =>
    intro t active hst _ hf2
    simp only [acquireJobSlotWithMemoryGuard, hover t, if_true]
    split
    · intro hcon
      exact GuardResult.noConfusion hcon
    · rename_i hle
      exact ih (t + cfg.jobSlotWaitIntervalMs) active (by omega) (by omega) (by omega)

/-! ## Theorems for the admission-guard claims -/

/-- Claim C4: if resident memory stays above the configured ceiling at every
poll, `acquireJobSlotWithMemoryGuard` (given enough fuel to reach the
deadline) fails with the timeout error and the held count is unchanged —
no slot is held by the failed caller, even though a free slot
(`hasAvailableJobSlot`) was available the whole time. -/
theorem memoryGuard_timeout_holds_no_slot (cfg : JobQueueConfig) (rss : Nat → Nat)
    (start : Nat) (active : Int) (fuel : Nat)
    (hover : ∀ u, memoryOverLimit cfg.maxMemoryMb (rss u) = true)
    (hint : 1 ≤ cfg.jobSlotWaitIntervalMs)
    (hfree : hasAvailableJobSlot cfg.maxConcurrentJobs active = true)
    (hfuel : cfg.jobQueueTimeoutMs + 2 ≤ fuel) :
    ∃ e, cfg.jobQueueTimeoutMs < e ∧
      acquireJobSlotWithMemoryGuard cfg rss start start active fuel
        = GuardResult.timedOut active e (timeoutMessage cfg.jobQueueTimeoutMs) := by
  have hshape := guard_overLimit_shape cfg rss start hover fuel start active
  have hterm := guard_overLimit_terminates cfg rss start hover hint fuel start active
    le_rfl (by omega) (by omega)
  rcases hshape with h | h
  · exact absurd h hterm
  · exact h

/-- Witness for C4: ceiling 10MB, constant RSS 11MB, interval 100ms,
timeout 250ms, one of two slots free; the guard times out with the counter
still 0. -/
theorem memoryGuard_timeout_holds_no_slot_witness :
    ∃ e, 250 < e ∧
      acquireJobSlotWithMemoryGuard ⟨some 10, 100, 250, 2⟩ (fun _ => 11) 0 0 0 300
        = GuardResult.timedOut 0 e (timeoutMessage 250) :=
  memoryGuard_timeout_holds_no_slot ⟨some 10, 100, 250, 2⟩ (fun _ => 11) 0 0 300
    (fun _ => rfl) (by decide) (by decide) (by decide)

/-- Claim C5 (amended): whenever the guard fails with its timeout error, the
elapsed time strictly exceeds the configured `JOB_QUEUE_TIMEOUT_MS`, and the
error message is exactly the fixed template carrying the configured timeout
(`Timed out after <timeout>ms waiting for free job slot and safe memory
level`); the elapsed duration is not part of the error. -/
theorem guard_timeout_error_content (cfg : JobQueueConfig) (rss : Nat → Nat)
    (start : Nat) (fuel : Nat) (t : Nat) (active : Int) (a : Int) (e : Nat) (m : List Char)
    (h : acquireJobSlotWithMemoryGuard cfg rss start t active fuel
        = GuardResult.timedOut a e m) :
    cfg.jobQueueTimeoutMs < e ∧
      m = timeoutMessageHead ++ natDigits cfg.jobQueueTimeoutMs ++ timeoutMessageTail := by
  induction fuel generalizing t active with
  | zero => exact absurd h (by simp [acquireJobSlotWithMemoryGuard])
  | succ fuel ih =>
    simp only [acquireJobSlotWithMemoryGuard] at h
    split at h
    · split at h
      · cases h
        exact ⟨by assumption, rfl⟩
      · exact ih _ _ h
    · split at h
      · exact absurd h (by simp)
      · split at h
        · cases h
          exact ⟨by assumption, rfl⟩
        · exact ih _ _ h

/-- Witness for C5: a concrete timed-out run (ceiling 10MB, RSS 11MB,
interval 100ms, timeout 250ms) satisfies the amended statement. -/
theorem guard_timeout_error_content_witness :
    (250 : Nat) < 300 ∧
      timeoutMessage 250 = timeoutMessageHead ++ natDigits 250 ++ timeoutMessageTail :=
  guard_timeout_error_content ⟨some 10, 100, 250, 2⟩ (fun _ => 11) 0 10 0 0 0 300
    (timeoutMessage 250) rfl

/-- Claim C5 counterexample: two timed-out acquisitions under the same
configured 250ms timeout, one with elapsed 300ms (poll interval 100ms) and
one with elapsed 400ms (poll interval 400ms), produce the identical error
value `timeoutMessage 250` — the Timeout error does not carry the elapsed
duration, only the configured timeout. -/
theorem timeout_error_elapsed_not_carried :
    acquireJobSlotWithMemoryGuard ⟨some 10, 100, 250, 2⟩ (fun _ => 11) 0 0 0 10
        = GuardResult.timedOut 0 300 (timeoutMessage 250) ∧
      acquireJobSlotWithMemoryGuard ⟨some 10, 400, 250, 2⟩ (fun _ => 11) 0 0 0 10
        = GuardResult.timedOut 0 400 (timeoutMessage 250) ∧
      (300 : Nat) ≠ 400 :=
  ⟨rfl, rfl, by decide⟩

/-- Claim C10: if the `MAX_MEMORY_MB` environment value parses to `NaN`
(`none`) or a non-positive number, the configured ceiling becomes
`Infinity` (`none`), and under that configuration the memory branch of
`acquireJobSlotWithMemoryGuard` is unreachable: the guard coincides with
the slot-count-only loop for every memory trace, time and counter. -/
theorem invalid_maxMemory_slot_only (parsedEnv : Option Int)
    (hbad : ∀ n, parsedEnv = some n → n ≤ 0)
    (cfg : JobQueueConfig) (hcfg : cfg.maxMemoryMb = parseMaxMemoryMb parsedEnv)
    (rss : Nat → Nat) (start : Nat) (fuel : Nat) (t : Nat) (active : Int) :
    cfg.maxMemoryMb = none ∧
      acquireJobSlotWithMemoryGuard cfg rss start t active fuel
        = acquireSlotOnlyLoop cfg start t active fuel := by
  have hnone : cfg.maxMemoryMb = none := by
    rw [hcfg]
    cases parsedEnv with
    | none => rfl
    | some n => simp only [parseMaxMemoryMb, if_pos (hbad n rfl)]
  refine ⟨hnone, ?_⟩
  induction fuel generalizing t active with
  | zero => rfl
  | succ fuel ih =>
    simp only [acquireJobSlotWithMemoryGuard, acquireSlotOnlyLoop, hnone, memoryOverLimit,
      Bool.false_eq_true, if_false]
    cases htry : tryAcquireJobSlot cfg.maxConcurrentJobs active with
    | mk b active1 =>
      cases b
      · simp only [htry]
        split
        · rfl
        · exact ih _ _
      · simp only [htry]

/-- Witness for C10: with the environment value parsed as `-5` the ceiling is
`Infinity` and a concrete guard run (RSS one gigabyte) equals the
slot-only loop run. -/
theorem invalid_maxMemory_slot_only_witness :
    (⟨parseMaxMemoryMb (some (-5)), 100, 250, 2⟩ : JobQueueConfig).maxMemoryMb = none ∧
      acquireJobSlotWithMemoryGuard ⟨parseMaxMemoryMb (some (-5)), 100, 250, 2⟩
          (fun _ => 1000000000) 0 0 0 4
        = acquireSlotOnlyLoop ⟨parseMaxMemoryMb (some (-5)), 100, 250, 2⟩ 0 0 0 4 :=
  invalid_maxMemory_slot_only (some (-5)) (fun n h => by simp at h; omega)
    ⟨parseMaxMemoryMb (some (-5)), 100, 250, 2⟩ rfl (fun _ => 1000000000) 0 4 0 0

/-! ## Sanitisation lemmas -/

theorem digitChar_allowed (n : Nat) : isSanitizeAllowed (digitChar n) = true := by
  match n with
  | 0 | 1 | 2 | 3 | 4 | 5 | 6 | 7 | 8 | 9 => rfl
  | _ + 10 => rfl

theorem natDigitsAux_allowed (fuel n : Nat) (c : Char) (hc : c ∈ natDigitsAux fuel n) :
    isSanitizeAllowed c = true := by
  induction fuel generalizing n with
  | zero => simp [natDigitsAux] at hc
  | succ fuel ih =>
    simp only [natDigitsAux] at hc
    split at hc
    · simp only [List.mem_singleton] at hc
      subst hc
      exact digitChar_allowed n
    · rcases List.mem_append.1 hc with h | h
      · exact ih _ h
      · simp only [List.mem_singleton] at h
        subst h
        exact digitChar_allowed _

theorem natDigits_allowed (n : Nat) (c : Char) (hc : c ∈ natDigits n) :
    isSanitizeAllowed c = true :=
  natDigitsAux_allowed _ _ _ hc

theorem audioFallbackStem_allowed : ∀ c ∈ audioFallbackStem, isSanitizeAllowed c = true := by
  decide

theorem mp3Ext_allowed : ∀ c ∈ mp3Ext, isSanitizeAllowed c = true := by
  decide

theorem replaceDisallowedRuns_allowed (inRun : Bool) (s : List Char) (c : Char)
    (hc : c ∈ replaceDisallowedRuns inRun s) : isSanitizeAllowed c = true := by
  induction s generalizing inRun with
  | nil => simp [replaceDisallowedRuns] at hc
  | cons d ds ih =>
    simp only [replaceDisallowedRuns] at hc
    split at hc
    · rcases List.mem_cons.1 hc with h | h
      · subst h
        assumption
      · exact ih _ h
    · split at hc
      · exact ih _ hc
      · rcases List.mem_cons.1 hc with h | h
        · subst h
          decide
        · exact ih _ h

theorem collapseUnderscoreRuns_subset (inRun : Bool) (s : List Char) (c : Char)
    (hc : c ∈ collapseUnderscoreRuns inRun s) : c ∈ s := by
  induction s generalizing inRun with
  | nil => simp [collapseUnderscoreRuns] at hc
  | cons d ds ih =>
    simp only [collapseUnderscoreRuns] at hc
    split at hc
    · rename_i hd
      have hd2 : d = '_' := by simpa using hd
      split at hc
      · exact List.mem_cons_of_mem d (ih _ hc)
      · rcases List.mem_cons.1 hc with h | h
        · subst h
          rw [hd2]
          exact List.mem_cons_self _ _
        · exact List.mem_cons_of_mem d (ih _ h)
    · rcases List.mem_cons.1 hc with h | h
      · subst h
        exact List.mem_cons_self _ _
      · exact List.mem_cons_of_mem d (ih _ h)

theorem stripUnderscoreEdges_subset (s : List Char) (c : Char)
    (hc : c ∈ stripUnderscoreEdges s) : c ∈ s := by
  unfold stripUnderscoreEdges at hc
  rw [List.mem_reverse] at hc
  have h1 : c ∈ (s.dropWhile (fun c => c == '_')).reverse :=
    (List.dropWhile_sublist _).subset hc
  rw [List.mem_reverse] at h1
  exact (List.dropWhile_sublist _).subset h1

theorem endsWithMp3Lower_append (l : List Char) : endsWithMp3Lower (l ++ mp3Ext) = true := by
  unfold endsWithMp3Lower
  rw [List.map_append, (by decide : mp3Ext.map jsToLowerChar = mp3Ext)]
  simp [List.isSuffixOf_iff_suffix]

theorem appendMp3IfNeeded_props (cleaned : List Char) (hne : cleaned ≠ [])
    (hall : ∀ c ∈ cleaned, isSanitizeAllowed c = true) :
    appendMp3IfNeeded cleaned ≠ [] ∧
      (∀ c ∈ appendMp3IfNeeded cleaned, isSanitizeAllowed c = true) ∧
      endsWithMp3Lower (appendMp3IfNeeded cleaned) = true := by
  unfold appendMp3IfNeeded
  by_cases h : endsWithMp3Lower cleaned = true
  · rw [if_pos h]
    exact ⟨hne, hall, h⟩
  · rw [if_neg h]
    refine ⟨?_, ?_, endsWithMp3Lower_append cleaned⟩
    · intro hcon
      exact absurd (List.append_eq_nil.1 hcon).2 (by decide)
    · intro c hc
      rcases List.mem_append.1 hc with h1 | h1
      · exact hall c h1
      · exact mp3Ext_allowed c h1

theorem fallbackName_ne_nil (nowTs : Nat) :
    audioFallbackStem ++ natDigits nowTs ++ mp3Ext ≠ [] := by
  intro h
  exact absurd (List.append_eq_nil.1 h).2 (by decide)

theorem fallbackName_allowed (nowTs : Nat) :
    ∀ c ∈ audioFallbackStem ++ natDigits nowTs ++ mp3Ext, isSanitizeAllowed c = true := by
  intro c hc
  rcases List.mem_append.1 hc with h | h
  · rcases List.mem_append.1 h with h1 | h1
    · exact audioFallbackStem_allowed c h1
    · exact natDigits_allowed _ c h1
  · exact mp3Ext_allowed c h

theorem fallbackStemDigits_ne_nil (nowTs : Nat) :
    audioFallbackStem ++ natDigits nowTs ≠ [] := by
  intro h
  exact absurd (List.append_eq_nil.1 h).1 (by decide)

theorem fallbackStemDigits_allowed (nowTs : Nat) :
    ∀ c ∈ audioFallbackStem ++ natDigits nowTs, isSanitizeAllowed c = true := by
  intro c hc
  rcases List.mem_append.1 hc with h | h
  · exact audioFallbackStem_allowed c h
  · exact natDigits_allowed _ c h

/-- Claim C9: for every input (null/undefined, the empty string, or any
string) and any timestamp, `sanitizeGcsObjectName` returns a non-empty
name whose characters all lie in `[a-zA-Z0-9._]`, whose lowercase form
ends with `.mp3`, and which for a falsy input is exactly
`audio_<timestamp>.mp3`. -/
theorem sanitizeGcsObjectName_spec (name : Option (List Char)) (nowTs : Nat) :
    sanitizeGcsObjectName name nowTs ≠ [] ∧
      (∀ c ∈ sanitizeGcsObjectName name nowTs, isSanitizeAllowed c = true) ∧
      endsWithMp3Lower (sanitizeGcsObjectName name nowTs) = true ∧
      ((name = none ∨ name = some []) →
        sanitizeGcsObjectName name nowTs = audioFallbackStem ++ natDigits nowTs ++ mp3Ext) := by
  cases name with
  | none =>
    exact ⟨fallbackName_ne_nil nowTs, fallbackName_allowed nowTs,
      endsWithMp3Lower_append (audioFallbackStem ++ natDigits nowTs), fun _ => rfl⟩
  | some s =>
    by_cases hs : s = []
    · subst hs
      exact ⟨fallbackName_ne_nil nowTs, fallbackName_allowed nowTs,
        endsWithMp3Lower_append (audioFallbackStem ++ natDigits nowTs), fun _ => rfl⟩
    · have hfalsyFalse : ¬ (some s = none ∨ some s = some ([] : List Char)) := by
        rintro (h | h)
        · exact Option.noConfusion h
        · injection h with h2
          exact absurd h2 hs
      have hdef : sanitizeGcsObjectName (some s) nowTs
          = appendMp3IfNeeded
              (if stripUnderscoreEdges (collapseUnderscoreRuns false
                    (replaceDisallowedRuns false (jsTrim s))) = []
                then audioFallbackStem ++ natDigits nowTs
                else stripUnderscoreEdges (collapseUnderscoreRuns false
                  (replaceDisallowedRuns false (jsTrim s)))) := by
        simp only [sanitizeGcsObjectName, if_neg hs]
      by_cases h0 : stripUnderscoreEdges (collapseUnderscoreRuns false
          (replaceDisallowedRuns false (jsTrim s))) = []
      · rw [hdef, if_pos h0]
        have hprops := appendMp3IfNeeded_props (audioFallbackStem ++ natDigits nowTs)
          (fallbackStemDigits_ne_nil nowTs) (fallbackStemDigits_allowed nowTs)
        exact ⟨hprops.1, hprops.2.1, hprops.2.2, fun hcon => absurd hcon hfalsyFalse⟩
      · rw [hdef, if_neg h0]
        have hall : ∀ c ∈ stripUnderscoreEdges (collapseUnderscoreRuns false
            (replaceDisallowedRuns false (jsTrim s))), isSanitizeAllowed c = true := by
          intro c hc
          exact replaceDisallowedRuns_allowed false (jsTrim s) c
            (collapseUnderscoreRuns_subset false _ c
              (stripUnderscoreEdges_subset _ c hc))
        have hprops := appendMp3IfNeeded_props _ h0 hall
        exact ⟨hprops.1, hprops.2.1, hprops.2.2, fun hcon => absurd hcon hfalsyFalse⟩

/-- Witness for C9: the null input at timestamp 7 produces `audio_7.mp3`
with all the stated properties. -/
theorem sanitizeGcsObjectName_spec_witness :
    sanitizeGcsObjectName none 7 ≠ [] ∧
      (∀ c ∈ sanitizeGcsObjectName none 7, isSanitizeAllowed c = true) ∧
      endsWithMp3Lower (sanitizeGcsObjectName none 7) = true ∧
      (((none : Option (List Char)) = none ∨ (none : Option (List Char)) = some []) →
        sanitizeGcsObjectName none 7 = audioFallbackStem ++ natDigits 7 ++ mp3Ext) :=
  sanitizeGcsObjectName_spec none 7

/-! ## Theorems for the pipeline claims -/

/-- Claim C1 counterexample: it is false that no execution path of
`convertStreamAndUpload` (src/lib/mediaPipeline.js) creates a temporary
file — already the successful run creates the downloaded-input temp file
(and the transcoded-output temp file). -/
theorem mediaPipeline_creates_temp_files :
    ¬ (∀ (s : MpScenario) (k : TempKind),
        (mediaPipelineTrace s).contains (PipeEvent.tempCreated k) = false) := by
  intro h
  exact absurd (h MpScenario.success TempKind.inputMp4) (by decide)

/-- Claim C1 (amended): the streaming `convertStreamAndUpload` variant
(src/unnamed/part_001) creates no temporary file on any execution path —
its transfer is in-memory through the piped process stdio and the bounded
PassThrough; the variant in src/lib/mediaPipeline.js stages the transfer
through two temporary files (downloaded input, transcoded output), created
on the successful path, and every temp file it creates is unlinked by the
`finally` cleanup on every execution path. -/
theorem tempFile_behaviour :
    (∀ (s : StScenario) (k : TempKind),
        (streamingTrace s).contains (PipeEvent.tempCreated k) = false) ∧
      (mediaPipelineTrace MpScenario.success).contains
        (PipeEvent.tempCreated TempKind.inputMp4) = true ∧
      (mediaPipelineTrace MpScenario.success).contains
        (PipeEvent.tempCreated TempKind.outputMp3) = true ∧
      (∀ s : MpScenario, tempFilesCleaned (mediaPipelineTrace s) = true) := by
  refine ⟨?_, by decide, by decide, ?_⟩
  · intro s k
    cases s <;> cases k <;> decide
  · intro s
    cases s <;> decide

/-- Claim C2 counterexample: in src/lib/mediaPipeline.js the three legs do
not run concurrently — on the successful run, ingest finishes strictly
before the transcoding process is spawned, and the process exits strictly
before egress starts, so the pipeline is buffer-then-forward, not
stream-through. -/
theorem mediaPipeline_legs_sequential :
    legsOverlapConcurrently (mediaPipelineTrace MpScenario.success) = false ∧
      occursBefore PipeEvent.ingestDone PipeEvent.procSpawned
        (mediaPipelineTrace MpScenario.success) = true ∧
      occursBefore (PipeEvent.procExited true) PipeEvent.egressStart
        (mediaPipelineTrace MpScenario.success) = true := by
  decide

/-- Claim C2 (amended): the streaming variant (src/unnamed/part_001) awaits
its three legs together and they overlap — the process starts consuming
input before ingest finishes and egress starts before the process exits;
the src/lib/mediaPipeline.js variant runs the legs sequentially: download
completes before ffmpeg is spawned, and ffmpeg exits before the upload
starts. -/
theorem streaming_legs_concurrent :
    legsOverlapConcurrently (streamingTrace StScenario.success) = true ∧
      occursBefore PipeEvent.procSpawned PipeEvent.ingestDone
        (streamingTrace StScenario.success) = true ∧
      occursBefore PipeEvent.egressStart (PipeEvent.procExited true)
        (streamingTrace StScenario.success) = true ∧
      occursBefore PipeEvent.ingestDone PipeEvent.procSpawned
        (mediaPipelineTrace MpScenario.success) = true ∧
      occursBefore (PipeEvent.procExited true) PipeEvent.egressStart
        (mediaPipelineTrace MpScenario.success) = true := by
  decide

/-- Claim C7 counterexample: on the streaming variant's egress-failure path
the spawned ffmpeg process is neither killed nor awaited before the call
throws — the invocation settles with the process spawned but its exit
never observed, so the process can outlive the invocation. -/
theorem streaming_process_can_outlive :
    procTerminatedBeforeSettle (streamingTrace StScenario.egressFails) = false ∧
      (streamingTrace StScenario.egressFails).contains PipeEvent.procSpawned = true ∧
      (streamingTrace StScenario.egressFails).contains (PipeEvent.settled false) = true := by
  decide

/-- Claim C7 (amended): in the temp-file variant (src/lib/mediaPipeline.js)
every exit path unlinks both temp files and, whenever a process was
spawned, observes its exit before the call settles; in the streaming
variant (src/unnamed/part_001) every exit path destroys the three streams
(ffmpeg stdin, ffmpeg stdout, the PassThrough), but when ingest or egress
fails while the process is still running the process is neither killed nor
awaited, so it may outlive the invocation. -/
theorem pipeline_resource_teardown :
    (∀ s : MpScenario, tempFilesCleaned (mediaPipelineTrace s) = true ∧
        procTerminatedBeforeSettle (mediaPipelineTrace s) = true) ∧
      (∀ s : StScenario, streamsTornDown (streamingTrace s) = true) := by
  constructor
  · intro s
    cases s <;> exact ⟨by decide, by decide⟩
  · intro s
    cases s <;> decide

/-- Claim C8: on success the run queries the destination sink for the final
persisted metadata and returns it to the caller — after the upload,
`getMetadata` reports exactly the persisted metadata, the success tail
returns the response built from that queried metadata, and the response's
size, content type, updated timestamp and custom metadata are the
persisted ones. -/
theorem processVideo_returns_sink_metadata (bucketName objectName : List Char)
    (file : GcsFileState) (persisted : GcsMetadata) :
    getMetadata (uploadFileToGcs file persisted) = some persisted ∧
      processVideoSuccessTail bucketName objectName file persisted
        = some (buildGcsAudioResponse bucketName objectName persisted) ∧
      (buildGcsAudioResponse bucketName objectName persisted).size = persisted.size ∧
      (buildGcsAudioResponse bucketName objectName persisted).contentType
        = persisted.contentType ∧
      (buildGcsAudioResponse bucketName objectName persisted).updated = persisted.updated ∧
      (buildGcsAudioResponse bucketName objectName persisted).custom = persisted.custom :=
  ⟨rfl, rfl, rfl, rfl, rfl, rfl⟩
